import Mathlib

/-!
Shallow embedding of `plane_seg_ros/src/plane_seg_ri.cpp` (the `RobotInterface`
node of the plane_seg repository) together with proofs settling the frozen
claims about it.

The pose/frame mathematics (quaternion to Euler angles, look-direction, the
rotation built inside `processCloud`) is modelled over the exact reals; the
visualization pipeline (hull point clouds, hull line markers, the color table)
is modelled over the rationals so that the definitions evaluate on concrete
inputs.  Machine floating point is replaced by exact arithmetic; the external
segmentation engine (`planeseg::BlockFitter::go`) is a parameter of the
embedding, since only its call site lives in this repository.
-/

namespace PlaneSeg

/-- A 3-vector over the reals, modelling `Eigen::Vector3f` in the pose/frame
code (exact arithmetic instead of `float`). -/
@[ext] structure Vec3 where
  x : ℝ
  y : ℝ
  z : ℝ

namespace Vec3

/-- Eigen dot product of two 3-vectors. -/
def dot (a b : Vec3) : ℝ := a.x * b.x + a.y * b.y + a.z * b.z

/-- Eigen `cross` of two 3-vectors. -/
def cross (a b : Vec3) : Vec3 :=
  ⟨a.y * b.z - a.z * b.y, a.z * b.x - a.x * b.z, a.x * b.y - a.y * b.x⟩

/-- Squared Euclidean norm. -/
def norm2 (a : Vec3) : ℝ := dot a a

/-- Euclidean norm, `Eigen::Vector3f::norm()`. -/
noncomputable def norm (a : Vec3) : ℝ := Real.sqrt (norm2 a)

/-- `Eigen::Vector3f::normalized()`: the vector divided componentwise by its
norm.  (For the zero vector, IEEE evaluation produces NaN entries; in this
exact model division by zero yields zero entries.) -/
noncomputable def normalized (a : Vec3) : Vec3 :=
  ⟨a.x / norm a, a.y / norm a, a.z / norm a⟩

/-- Scalar multiple of a 3-vector. -/
def smul (t : ℝ) (a : Vec3) : Vec3 := ⟨t * a.x, t * a.y, t * a.z⟩

/-- `Eigen::Vector3f::UnitZ()`, the world up axis. -/
def unitZ : Vec3 := ⟨0, 0, 1⟩

/-- The zero 3-vector. -/
def zero : Vec3 := ⟨0, 0, 0⟩

end Vec3

/-- A quaternion `(w, x, y, z)`, modelling `Eigen::Quaterniond`. -/
structure Quat where
  w : ℝ
  x : ℝ
  y : ℝ
  z : ℝ

/-- C library `atan2(y, x)`: the argument of the complex number `x + y*i`,
with range `(-pi, pi]` and `atan2 0 0 = 0`, matching the C convention on
non-NaN inputs (signed zeros aside, which exact arithmetic cannot express). -/
noncomputable def atan2 (y x : ℝ) : ℝ := Complex.arg ⟨x, y⟩

/-- `quat_to_euler` (plane_seg_ri.cpp lines 134-142): converts a quaternion to
`(roll, pitch, yaw)`.  `pitch` is `asin(2(q0*q2 - q3*q1))` with no clamping of
the argument. -/
noncomputable def quat_to_euler (q : Quat) : ℝ × ℝ × ℝ :=
  (atan2 (2 * (q.w * q.x + q.y * q.z)) (1 - 2 * (q.x * q.x + q.y * q.y)),
   Real.arcsin (2 * (q.w * q.y - q.z * q.x)),
   atan2 (2 * (q.w * q.z + q.x * q.y)) (1 - 2 * (q.y * q.y + q.z * q.z)))

/-- The raw argument `2(q0*q2 - q3*q1)` that line 140 passes to `asin`. -/
def pitchArg (q : Quat) : ℝ := 2 * (q.w * q.y - q.z * q.x)

/-- A rigid transform, modelling `Eigen::Isometry3d`: a translation together
with the rotation part.  The source extracts the rotation as
`Eigen::Quaterniond(robot_pose.rotation())`; the embedding carries that
quaternion directly (Eigen's matrix-to-quaternion extraction is library code
outside this repository; the identity transform corresponds to the identity
quaternion `(1,0,0,0)`). -/
structure Pose where
  translation : Vec3
  rotQuat : Quat

/-- `Eigen::Isometry3d::Identity()`. -/
def idPose : Pose := ⟨⟨0, 0, 0⟩, ⟨1, 0, 0, 0⟩⟩

/-- `convertRobotPoseToSensorLookDir` (lines 150-162): Euler-decomposes the
pose's rotation and builds the forward look direction from yaw and negated
pitch. -/
noncomputable def convertRobotPoseToSensorLookDir (robot_pose : Pose) : Vec3 :=
  let rpy := quat_to_euler robot_pose.rotQuat
  let yaw := rpy.2.2
  let pitch := -rpy.2.1
  ⟨Real.cos yaw * Real.cos pitch, Real.sin yaw * Real.cos pitch, Real.sin pitch⟩

/-- The rotation built inside `processCloud` (lines 293-299): columns
`rx.normalized()`, `ry.normalized()`, `rz.normalized()` where `rz = lookDir`,
`rx = rz x UnitZ()`, `ry = rz x rx`.  There is no check for `lookDir` parallel
to the world up axis. -/
noncomputable def processCloudRotation (lookDir : Vec3) : Vec3 × Vec3 × Vec3 :=
  let rz := lookDir
  let rx := Vec3.cross rz Vec3.unitZ
  let ry := Vec3.cross rz rx
  (rx.normalized, ry.normalized, rz.normalized)

/-- A `pcl::PointXYZ`, modelled with exact rational coordinates. -/
abbrev Pt : Type := ℚ × ℚ × ℚ

/-- An RGB triple as emitted by the two hull publishers (the `r`,`g`,`b`
fields they write, i.e. the palette values scaled by 255). -/
abbrev Color : Type := ℚ × ℚ × ℚ

/-- The member `colors_` initialized in the `RobotInterface` constructor
(lines 85-113): a flat list of 84 rationals, three per color. -/
def colors_ : List ℚ :=
  [51/255, 160/255, 44/255,
   166/255, 206/255, 227/255,
   178/255, 223/255, 138/255,
   31/255, 120/255, 180/255,
   251/255, 154/255, 153/255,
   227/255, 26/255, 28/255,
   253/255, 191/255, 111/255,
   106/255, 61/255, 154/255,
   255/255, 127/255, 0/255,
   202/255, 178/255, 214/255,
   1, 0, 0,
   0, 1, 0,
   0, 0, 1,
   1, 1, 0,
   1, 0, 1,
   0, 1, 1,
   1/2, 1, 0,
   1, 1/2, 0,
   1/2, 0, 1,
   1, 0, 1/2,
   0, 1/2, 1,
   0, 1, 1/2,
   1, 1/2, 1/2,
   1/2, 1, 1/2,
   1/2, 1/2, 1,
   1/2, 1/2, 1,
   1/2, 1, 1/2,
   1/2, 1/2, 1]

/-- The color written for hull index `i` by both publishers (lines 414-417 and
468-471): `nColor = i % (colors_.size()/3)` and the triple
`(colors_[nColor*3]*255, colors_[nColor*3+1]*255, colors_[nColor*3+2]*255)`. -/
def colorOf (i : ℕ) : Color :=
  (colors_.getD ((i % (colors_.length / 3)) * 3) 0 * 255,
   colors_.getD ((i % (colors_.length / 3)) * 3 + 1) 0 * 255,
   colors_.getD ((i % (colors_.length / 3)) * 3 + 2) 0 * 255)

/-- One hull's contribution to the `LINE_LIST` marker of
`publishHullsAsMarkers` (lines 473-514), at segment granularity: the loop
`for j = 1; j < size; j++` emits the segment `(points[j-1], points[j])`, and
then the closing segment `(points[0], points[size-1])` is emitted
unconditionally.  Every emitted vertex carries the hull color `c`; the two
vertices of a segment always carry the same color, so the color is recorded
once per segment.  Out-of-range accesses (possible only for an empty hull,
where the C++ indexes `points[0]` and `points[size-1]` out of bounds) are
modelled by `List.getD` with a default. -/
def hullMarker (c : Color) (ps : List Pt) : List ((Pt × Pt) × Color) :=
  (List.range' 1 (ps.length - 1)).map
    (fun j => ((ps.getD (j - 1) (0, 0, 0), ps.getD j (0, 0, 0)), c))
  ++ [((ps.getD 0 (0, 0, 0), ps.getD (ps.length - 1) (0, 0, 0)), c)]

/-- The loop of `publishHullsAsMarkers` over `cloud_ptrs` (line 467), with `i`
the running hull index. -/
def publishHullsAsMarkersGo (i : ℕ) (hulls : List (List Pt)) :
    List ((Pt × Pt) × Color) :=
  match hulls with
  | [] => []
  | ps :: rest => hullMarker (colorOf i) ps ++ publishHullsAsMarkersGo (i + 1) rest

/-- `publishHullsAsMarkers` (lines 441-519): the list of colored line segments
of the single `LINE_LIST` marker it publishes. -/
def publishHullsAsMarkers (hulls : List (List Pt)) : List ((Pt × Pt) × Color) :=
  publishHullsAsMarkersGo 0 hulls

/-- The loop of `publishHullsAsCloud` over `cloud_ptrs` (lines 410-424), with
`i` the running hull index: hull `i`'s points are appended to the combined
cloud, each carrying the hull color. -/
def publishHullsAsCloudGo (i : ℕ) (hulls : List (List Pt)) : List (Pt × Color) :=
  match hulls with
  | [] => []
  | ps :: rest => ps.map (fun p => (p, colorOf i)) ++ publishHullsAsCloudGo (i + 1) rest

/-- `publishHullsAsCloud` (lines 407-432): the combined colored point cloud it
publishes. -/
def publishHullsAsCloud (hulls : List (List Pt)) : List (Pt × Color) :=
  publishHullsAsCloudGo 0 hulls

/-- Sequences a list of optional values: `some` of the list of values when all
are present, `none` as soon as one is missing. -/
def seqOpt {α : Type} : List (Option α) → Option (List α)
  | [] => some []
  | none :: _ => none
  | some a :: rest => (seqOpt rest).map (fun l => a :: l)

/-- Bounds-checked variant of `hullMarker`: every point access of the source
loop (indices `j-1` and `j` for `j` in `1..size-1`, and indices `0` and
`size-1` for the unconditional closing segment) is performed with `List.get?`,
and the whole marker contribution is `none` if any access is out of bounds.
This is the reference against which in-bounds safety of the `getD` version is
stated. -/
def hullMarkerChecked (c : Color) (ps : List Pt) :
    Option (List ((Pt × Pt) × Color)) :=
  match seqOpt ((List.range' 1 (ps.length - 1)).map
          (fun j => (ps.get? (j - 1)).bind
            (fun a => (ps.get? j).map (fun b => ((a, b), c))))),
        ps.get? 0, ps.get? (ps.length - 1) with
  | some edges, some p0, some pn => some (edges ++ [((p0, pn), c)])
  | _, _, _ => none

/-- A `planeseg::Block` as consumed by this file: only the hull boundary
`mHull` is read by the modelled code paths (`publishResult` copies it point by
point; `mSize`/`mPose` feed only the diagnostic text dump, whose identifier
logic is modelled separately by `uuid`). -/
structure Block where
  mHull : List Pt
deriving DecidableEq

/-- The mutable state of a `RobotInterface`: the cached robot pose
`last_robot_pose_` and the stored segmentation result `result_`. -/
structure RIState where
  lastRobotPose : Pose
  result : List Block

/-- The state established by the `RobotInterface` constructor (lines 67-114):
`last_robot_pose_ = Eigen::Isometry3d::Identity()` and a default-constructed
(empty) result. -/
def initialState : RIState := ⟨idPose, []⟩

/-- `publishResult` (lines 371-398): converts the stored result into one point
cloud per block by copying each hull point, then publishes the hull cloud and
the hull markers built from those clouds. -/
def publishResult (result : List Block) :
    List (Pt × Color) × List ((Pt × Pt) × Color) :=
  (publishHullsAsCloud (result.map Block.mHull),
   publishHullsAsMarkers (result.map Block.mHull))

/-- Everything `processCloud` publishes in one cycle: the look pose (the
rotation built from `lookDir` plus the origin), the re-published input cloud,
and the two hull visualizations. -/
structure ProcessOutput where
  lookRotation : Vec3 × Vec3 × Vec3
  lookOrigin : Vec3
  receivedCloud : List Pt
  hullCloud : List (Pt × Color)
  hullMarkers : List ((Pt × Pt) × Color)

/-- `processCloud` (lines 278-319).  The external engine
(`planeseg::BlockFitter` configured and run via `fitter.go()`) is a parameter
`engine`.  The source performs no validation of `inCloud`: it invokes the
engine unconditionally and overwrites `result_` with the returned value, then
builds the look rotation and publishes. -/
noncomputable def processCloud (engine : List Pt → List Block) (s : RIState)
    (inCloud : List Pt) (origin lookDir : Vec3) : RIState × ProcessOutput :=
  let result := engine inCloud
  let s2 : RIState := { s with result := result }
  (s2,
   { lookRotation := processCloudRotation lookDir
     lookOrigin := origin
     receivedCloud := inCloud
     hullCloud := (publishResult result).1
     hullMarkers := (publishResult result).2 })

/-- The origin and look direction computed by the cloud callbacks (lines
180-182 and 197-199): the cached pose's translation, and the look direction
derived from the cached pose. -/
noncomputable def callbackArgs (s : RIState) : Vec3 × Vec3 :=
  (s.lastRobotPose.translation, convertRobotPoseToSensorLookDir s.lastRobotPose)

/-- `pointCloudCallback` (lines 193-202): converts the message to a cloud and
processes it with the origin and look direction derived from the cached
pose. -/
noncomputable def pointCloudCallback (engine : List Pt → List Block)
    (s : RIState) (msg : List Pt) : RIState × ProcessOutput :=
  processCloud engine s msg (callbackArgs s).1 (callbackArgs s).2

/-- The identifier built for block `i` by `printResultAsJson` (line 349):
the string literal `"0_"` followed by `std::to_string(i + 1)`. -/
def uuid (i : ℕ) : String := "0_" ++ toString (i + 1)

/-- Modelled from the spec: the identifier form
`"<cycleIndex>_<blockIndexPlusOne>"` — the current cycle index, an
underscore, and the block index plus one.  The source maintains no cycle
counter, so this form is present only for comparison with `uuid`. -/
def uuidSpec (cycleIndex i : ℕ) : String :=
  toString cycleIndex ++ "_" ++ toString (i + 1)

/-- The identifiers assigned by the loop of `printResultAsJson` (lines
341-362) to the blocks of the stored result, in block order. -/
def printResultAsJsonUuids (result : List Block) : List String :=
  (List.range result.length).map uuid

/-- Modelled from the spec: the 28-entry RGB palette of §3, written in the
8-bit scale in which both publishers emit colors (each entry is 255 times the
corresponding `colors_` triple). -/
def paletteSpec : List Color :=
  [(51, 160, 44), (166, 206, 227), (178, 223, 138), (31, 120, 180),
   (251, 154, 153), (227, 26, 28), (253, 191, 111), (106, 61, 154),
   (255, 127, 0), (202, 178, 214), (255, 0, 0), (0, 255, 0), (0, 0, 255),
   (255, 255, 0), (255, 0, 255), (0, 255, 255), (255/2, 255, 0),
   (255, 255/2, 0), (255/2, 0, 255), (255, 0, 255/2), (0, 255/2, 255),
   (0, 255, 255/2), (255, 255/2, 255/2), (255/2, 255, 255/2),
   (255/2, 255/2, 255), (255/2, 255/2, 255), (255/2, 255, 255/2),
   (255/2, 255/2, 255)]

/-! ### Helper lemmas -/

namespace Vec3

theorem norm2_nonneg (a : Vec3) : 0 ≤ norm2 a := by
  have hx := mul_self_nonneg a.x
  have hy := mul_self_nonneg a.y
  have hz := mul_self_nonneg a.z
  unfold norm2 dot; linarith

theorem norm2_eq_zero_iff (a : Vec3) : norm2 a = 0 ↔ a = zero := by
  constructor
  · intro h
    have hnx := mul_self_nonneg a.x
    have hny := mul_self_nonneg a.y
    have hnz := mul_self_nonneg a.z
    unfold norm2 dot at h
    have hx : a.x * a.x = 0 := by linarith
    have hy : a.y * a.y = 0 := by linarith
    have hz : a.z * a.z = 0 := by linarith
    ext
    · exact mul_self_eq_zero.mp hx
    · exact mul_self_eq_zero.mp hy
    · exact mul_self_eq_zero.mp hz
  · intro h; subst h; unfold norm2 dot zero; ring

theorem norm2_pos_of_ne_zero {a : Vec3} (h : a ≠ zero) : 0 < norm2 a :=
  lt_of_le_of_ne (norm2_nonneg a) (fun he => h ((norm2_eq_zero_iff a).mp he.symm))

theorem norm_pos_of_ne_zero {a : Vec3} (h : a ≠ zero) : 0 < norm a :=
  Real.sqrt_pos.mpr (norm2_pos_of_ne_zero h)

theorem norm_mul_self (a : Vec3) : norm a * norm a = norm2 a :=
  Real.mul_self_sqrt (norm2_nonneg a)

theorem dot_comm (a b : Vec3) : dot a b = dot b a := by unfold dot; ring

theorem dot_self_cross (a b : Vec3) : dot a (cross a b) = 0 := by
  unfold dot cross; ring

theorem dot_cross_right (a b : Vec3) : dot b (cross a b) = 0 := by
  unfold dot cross; ring

theorem cross_zero_left (b : Vec3) : cross zero b = zero := by
  unfold cross zero; ext <;> ring

theorem norm2_cross (a b : Vec3) :
    norm2 (cross a b) = norm2 a * norm2 b - dot a b * dot a b := by
  unfold norm2 dot cross; ring

theorem cross_cross_of_dot_eq_zero (a b : Vec3) (h : dot a b = 0) :
    cross a (cross b a) = smul (dot a a) b := by
  unfold dot at h
  ext
  · show a.y * (cross b a).z - a.z * (cross b a).y = _
    unfold cross smul dot
    linear_combination (-a.x) * h
  · show a.z * (cross b a).x - a.x * (cross b a).z = _
    unfold cross smul dot
    linear_combination (-a.y) * h
  · show a.x * (cross b a).y - a.y * (cross b a).x = _
    unfold cross smul dot
    linear_combination (-a.z) * h

theorem dot_normalized (a b : Vec3) :
    dot (normalized a) (normalized b) = dot a b / (norm a * norm b) := by
  unfold normalized dot; ring

theorem norm2_normalized {a : Vec3} (h : a ≠ zero) : norm2 (normalized a) = 1 := by
  have hn : norm a ≠ 0 := ne_of_gt (norm_pos_of_ne_zero h)
  have hsq := norm_mul_self a
  unfold norm2 dot at hsq ⊢
  unfold normalized
  field_simp
  linear_combination (-1 : ℝ) * hsq

theorem norm_normalized {a : Vec3} (h : a ≠ zero) : norm (normalized a) = 1 := by
  unfold norm
  rw [norm2_normalized h, Real.sqrt_one]

theorem normalized_eq_smul (a : Vec3) : normalized a = smul (1 / norm a) a := by
  unfold normalized smul; ext <;> ring

theorem cross_smul_smul (s t : ℝ) (a b : Vec3) :
    cross (smul s a) (smul t b) = smul (s * t) (cross a b) := by
  unfold cross smul; ext <;> ring

theorem smul_smul (s t : ℝ) (a : Vec3) : smul s (smul t a) = smul (s * t) a := by
  unfold smul; ext <;> ring

theorem normalized_zero : normalized zero = zero := by
  unfold normalized zero norm norm2 dot
  ext <;> simp

end Vec3

theorem quat_to_euler_pitch (q : Quat) :
    (quat_to_euler q).2.1 = Real.arcsin (pitchArg q) := rfl

theorem atan2_zero_one : atan2 0 1 = 0 := by
  unfold atan2
  have h : (⟨1, 0⟩ : ℂ) = 1 := Complex.ext_iff.mpr (by constructor <;> simp)
  rw [h, Complex.arg_one]

theorem quat_to_euler_id : quat_to_euler ⟨1, 0, 0, 0⟩ = (0, 0, 0) := by
  unfold quat_to_euler
  norm_num [atan2_zero_one, Real.arcsin_zero]

theorem convert_id_lookDir : convertRobotPoseToSensorLookDir idPose = ⟨1, 0, 0⟩ := by
  unfold convertRobotPoseToSensorLookDir idPose
  rw [quat_to_euler_id]
  norm_num

theorem hullMarker_length (c : Color) (ps : List Pt) (h : 1 ≤ ps.length) :
    (hullMarker c ps).length = ps.length := by
  unfold hullMarker
  rw [List.length_append, List.length_map, List.length_range']
  simp
  omega

theorem publishHullsAsMarkersGo_length (k : ℕ) (hulls : List (List Pt))
    (h : ∀ ps ∈ hulls, 1 ≤ ps.length) :
    (publishHullsAsMarkersGo k hulls).length = (hulls.map List.length).sum := by
  induction hulls generalizing k with
  | nil => rfl
  | cons ps rest ih =>
    unfold publishHullsAsMarkersGo
    rw [List.length_append, hullMarker_length _ _ (h ps (by simp)),
      ih (k + 1) (fun q hq => h q (by simp [hq]))]
    simp

theorem get?_eq_some_getD {α : Type} (l : List α) (d : α) (k : ℕ)
    (h : k < l.length) : l.get? k = some (l.getD k d) := by
  rw [List.getD_eq_getElem?_getD, List.get?_eq_getElem?]
  rcases hx : l[k]? with _ | a
  · rw [List.getElem?_eq_none_iff] at hx; omega
  · rfl

theorem seqOpt_map_eq_some {α β : Type} (l : List α) (f : α → Option β)
    (g : α → β) (h : ∀ x ∈ l, f x = some (g x)) :
    seqOpt (l.map f) = some (l.map g) := by
  induction l with
  | nil => rfl
  | cons a rest ih =>
    have ha : f a = some (g a) := h a (by simp)
    have hr := ih (fun x hx => h x (by simp [hx]))
    rw [List.map_cons, ha]
    show (seqOpt (rest.map f)).map (fun l => g a :: l) = _
    rw [hr]
    rfl

theorem mem_hullMarker_color (c : Color) (ps : List Pt) (e : (Pt × Pt) × Color)
    (h : e ∈ hullMarker c ps) : e.2 = c := by
  unfold hullMarker at h
  rcases List.mem_append.mp h with h1 | h2
  · rcases List.mem_map.mp h1 with ⟨j, _, he⟩
    rw [← he]
  · simp only [List.mem_singleton] at h2
    rw [h2]

theorem publishHullsAsCloudGo_decomp (hulls : List (List Pt)) :
    ∀ (k i : ℕ) (ps : List Pt), hulls.get? i = some ps →
    publishHullsAsCloudGo k hulls =
      publishHullsAsCloudGo k (hulls.take i)
      ++ ps.map (fun p => (p, colorOf (k + i)))
      ++ publishHullsAsCloudGo (k + i + 1) (hulls.drop (i + 1)) := by
  induction hulls with
  | nil =>
    intro k i ps h
    simp at h
  | cons q rest ih =>
    intro k i ps h
    cases i with
    | zero =>
      rw [List.get?_cons_zero] at h
      injection h with h2
      subst h2
      simp [publishHullsAsCloudGo]
    | succ j =>
      rw [List.get?_cons_succ] at h
      have hih := ih (k + 1) j ps h
      have h1 : k + (j + 1) = k + 1 + j := by omega
      rw [List.take_succ_cons, List.drop_succ_cons, h1]
      show List.map (fun p => (p, colorOf k)) q ++ publishHullsAsCloudGo (k + 1) rest = _
      rw [hih]
      simp [publishHullsAsCloudGo, List.append_assoc]

theorem publishHullsAsMarkersGo_decomp (hulls : List (List Pt)) :
    ∀ (k i : ℕ) (ps : List Pt), hulls.get? i = some ps →
    publishHullsAsMarkersGo k hulls =
      publishHullsAsMarkersGo k (hulls.take i)
      ++ hullMarker (colorOf (k + i)) ps
      ++ publishHullsAsMarkersGo (k + i + 1) (hulls.drop (i + 1)) := by
  induction hulls with
  | nil =>
    intro k i ps h
    simp at h
  | cons q rest ih =>
    intro k i ps h
    cases i with
    | zero =>
      rw [List.get?_cons_zero] at h
      injection h with h2
      subst h2
      simp [publishHullsAsMarkersGo]
    | succ j =>
      rw [List.get?_cons_succ] at h
      have hih := ih (k + 1) j ps h
      have h1 : k + (j + 1) = k + 1 + j := by omega
      rw [List.take_succ_cons, List.drop_succ_cons, h1]
      show hullMarker (colorOf k) q ++ publishHullsAsMarkersGo (k + 1) rest = _
      rw [hih]
      simp [publishHullsAsMarkersGo, List.append_assoc]

theorem colorPalette0 : colorOf 0 = paletteSpec.getD 0 (0, 0, 0) := by
  show ((51/255 : ℚ) * 255, (160/255 : ℚ) * 255, (44/255 : ℚ) * 255) =
      ((51 : ℚ), (160 : ℚ), (44 : ℚ))
  norm_num

theorem colorPalette1 : colorOf 1 = paletteSpec.getD 1 (0, 0, 0) := by
  show ((166/255 : ℚ) * 255, (206/255 : ℚ) * 255, (227/255 : ℚ) * 255) =
      ((166 : ℚ), (206 : ℚ), (227 : ℚ))
  norm_num

theorem colorPalette2 : colorOf 2 = paletteSpec.getD 2 (0, 0, 0) := by
  show ((178/255 : ℚ) * 255, (223/255 : ℚ) * 255, (138/255 : ℚ) * 255) =
      ((178 : ℚ), (223 : ℚ), (138 : ℚ))
  norm_num

theorem colorPalette3 : colorOf 3 = paletteSpec.getD 3 (0, 0, 0) := by
  show ((31/255 : ℚ) * 255, (120/255 : ℚ) * 255, (180/255 : ℚ) * 255) =
      ((31 : ℚ), (120 : ℚ), (180 : ℚ))
  norm_num

theorem colorPalette4 : colorOf 4 = paletteSpec.getD 4 (0, 0, 0) := by
  show ((251/255 : ℚ) * 255, (154/255 : ℚ) * 255, (153/255 : ℚ) * 255) =
      ((251 : ℚ), (154 : ℚ), (153 : ℚ))
  norm_num

theorem colorPalette5 : colorOf 5 = paletteSpec.getD 5 (0, 0, 0) := by
  show ((227/255 : ℚ) * 255, (26/255 : ℚ) * 255, (28/255 : ℚ) * 255) =
      ((227 : ℚ), (26 : ℚ), (28 : ℚ))
  norm_num

theorem colorPalette6 : colorOf 6 = paletteSpec.getD 6 (0, 0, 0) := by
  show ((253/255 : ℚ) * 255, (191/255 : ℚ) * 255, (111/255 : ℚ) * 255) =
      ((253 : ℚ), (191 : ℚ), (111 : ℚ))
  norm_num

theorem colorPalette7 : colorOf 7 = paletteSpec.getD 7 (0, 0, 0) := by
  show ((106/255 : ℚ) * 255, (61/255 : ℚ) * 255, (154/255 : ℚ) * 255) =
      ((106 : ℚ), (61 : ℚ), (154 : ℚ))
  norm_num

theorem colorPalette8 : colorOf 8 = paletteSpec.getD 8 (0, 0, 0) := by
  show ((255/255 : ℚ) * 255, (127/255 : ℚ) * 255, (0/255 : ℚ) * 255) =
      ((255 : ℚ), (127 : ℚ), (0 : ℚ))
  norm_num

theorem colorPalette9 : colorOf 9 = paletteSpec.getD 9 (0, 0, 0) := by
  show ((202/255 : ℚ) * 255, (178/255 : ℚ) * 255, (214/255 : ℚ) * 255) =
      ((202 : ℚ), (178 : ℚ), (214 : ℚ))
  norm_num

theorem colorPalette10 : colorOf 10 = paletteSpec.getD 10 (0, 0, 0) := by
  show ((1 : ℚ) * 255, (0 : ℚ) * 255, (0 : ℚ) * 255) =
      ((255 : ℚ), (0 : ℚ), (0 : ℚ))
  norm_num

theorem colorPalette11 : colorOf 11 = paletteSpec.getD 11 (0, 0, 0) := by
  show ((0 : ℚ) * 255, (1 : ℚ) * 255, (0 : ℚ) * 255) =
      ((0 : ℚ), (255 : ℚ), (0 : ℚ))
  norm_num

theorem colorPalette12 : colorOf 12 = paletteSpec.getD 12 (0, 0, 0) := by
  show ((0 : ℚ) * 255, (0 : ℚ) * 255, (1 : ℚ) * 255) =
      ((0 : ℚ), (0 : ℚ), (255 : ℚ))
  norm_num

theorem colorPalette13 : colorOf 13 = paletteSpec.getD 13 (0, 0, 0) := by
  show ((1 : ℚ) * 255, (1 : ℚ) * 255, (0 : ℚ) * 255) =
      ((255 : ℚ), (255 : ℚ), (0 : ℚ))
  norm_num

theorem colorPalette14 : colorOf 14 = paletteSpec.getD 14 (0, 0, 0) := by
  show ((1 : ℚ) * 255, (0 : ℚ) * 255, (1 : ℚ) * 255) =
      ((255 : ℚ), (0 : ℚ), (255 : ℚ))
  norm_num

theorem colorPalette15 : colorOf 15 = paletteSpec.getD 15 (0, 0, 0) := by
  show ((0 : ℚ) * 255, (1 : ℚ) * 255, (1 : ℚ) * 255) =
      ((0 : ℚ), (255 : ℚ), (255 : ℚ))
  norm_num

theorem colorPalette16 : colorOf 16 = paletteSpec.getD 16 (0, 0, 0) := by
  show ((1/2 : ℚ) * 255, (1 : ℚ) * 255, (0 : ℚ) * 255) =
      ((255/2 : ℚ), (255 : ℚ), (0 : ℚ))
  norm_num

theorem colorPalette17 : colorOf 17 = paletteSpec.getD 17 (0, 0, 0) := by
  show ((1 : ℚ) * 255, (1/2 : ℚ) * 255, (0 : ℚ) * 255) =
      ((255 : ℚ), (255/2 : ℚ), (0 : ℚ))
  norm_num

theorem colorPalette18 : colorOf 18 = paletteSpec.getD 18 (0, 0, 0) := by
  show ((1/2 : ℚ) * 255, (0 : ℚ) * 255, (1 : ℚ) * 255) =
      ((255/2 : ℚ), (0 : ℚ), (255 : ℚ))
  norm_num

theorem colorPalette19 : colorOf 19 = paletteSpec.getD 19 (0, 0, 0) := by
  show ((1 : ℚ) * 255, (0 : ℚ) * 255, (1/2 : ℚ) * 255) =
      ((255 : ℚ), (0 : ℚ), (255/2 : ℚ))
  norm_num

theorem colorPalette20 : colorOf 20 = paletteSpec.getD 20 (0, 0, 0) := by
  show ((0 : ℚ) * 255, (1/2 : ℚ) * 255, (1 : ℚ) * 255) =
      ((0 : ℚ), (255/2 : ℚ), (255 : ℚ))
  norm_num

theorem colorPalette21 : colorOf 21 = paletteSpec.getD 21 (0, 0, 0) := by
  show ((0 : ℚ) * 255, (1 : ℚ) * 255, (1/2 : ℚ) * 255) =
      ((0 : ℚ), (255 : ℚ), (255/2 : ℚ))
  norm_num

theorem colorPalette22 : colorOf 22 = paletteSpec.getD 22 (0, 0, 0) := by
  show ((1 : ℚ) * 255, (1/2 : ℚ) * 255, (1/2 : ℚ) * 255) =
      ((255 : ℚ), (255/2 : ℚ), (255/2 : ℚ))
  norm_num

theorem colorPalette23 : colorOf 23 = paletteSpec.getD 23 (0, 0, 0) := by
  show ((1/2 : ℚ) * 255, (1 : ℚ) * 255, (1/2 : ℚ) * 255) =
      ((255/2 : ℚ), (255 : ℚ), (255/2 : ℚ))
  norm_num

theorem colorPalette24 : colorOf 24 = paletteSpec.getD 24 (0, 0, 0) := by
  show ((1/2 : ℚ) * 255, (1/2 : ℚ) * 255, (1 : ℚ) * 255) =
      ((255/2 : ℚ), (255/2 : ℚ), (255 : ℚ))
  norm_num

theorem colorPalette25 : colorOf 25 = paletteSpec.getD 25 (0, 0, 0) := by
  show ((1/2 : ℚ) * 255, (1/2 : ℚ) * 255, (1 : ℚ) * 255) =
      ((255/2 : ℚ), (255/2 : ℚ), (255 : ℚ))
  norm_num

theorem colorPalette26 : colorOf 26 = paletteSpec.getD 26 (0, 0, 0) := by
  show ((1/2 : ℚ) * 255, (1 : ℚ) * 255, (1/2 : ℚ) * 255) =
      ((255/2 : ℚ), (255 : ℚ), (255/2 : ℚ))
  norm_num

theorem colorPalette27 : colorOf 27 = paletteSpec.getD 27 (0, 0, 0) := by
  show ((1/2 : ℚ) * 255, (1/2 : ℚ) * 255, (1 : ℚ) * 255) =
      ((255/2 : ℚ), (255/2 : ℚ), (255 : ℚ))
  norm_num

theorem colorOf_mod (i : ℕ) : colorOf i = colorOf (i % 28) := by
  unfold colorOf
  rw [show colors_.length / 3 = 28 from rfl]
  have h : (i % 28) % 28 = i % 28 := by omega
  rw [h]

theorem colorOf_eq_paletteSpec (i : ℕ) :
    colorOf i = paletteSpec.getD (i % 28) (0, 0, 0) := by
  rw [colorOf_mod i]
  have h : i % 28 < 28 := Nat.mod_lt _ (by norm_num)
  revert h
  generalize i % 28 = n
  intro h
  interval_cases n
  · exact colorPalette0
  · exact colorPalette1
  · exact colorPalette2
  · exact colorPalette3
  · exact colorPalette4
  · exact colorPalette5
  · exact colorPalette6
  · exact colorPalette7
  · exact colorPalette8
  · exact colorPalette9
  · exact colorPalette10
  · exact colorPalette11
  · exact colorPalette12
  · exact colorPalette13
  · exact colorPalette14
  · exact colorPalette15
  · exact colorPalette16
  · exact colorPalette17
  · exact colorPalette18
  · exact colorPalette19
  · exact colorPalette20
  · exact colorPalette21
  · exact colorPalette22
  · exact colorPalette23
  · exact colorPalette24
  · exact colorPalette25
  · exact colorPalette26
  · exact colorPalette27

/-! ### Claim theorems -/

/-- C1 counterexample: a result consisting of one hull with exactly one
boundary point yields one (degenerate) line segment, not the zero segments
the claim requires — the closing segment is emitted unconditionally. -/
theorem C1_counterexample :
    (publishHullsAsMarkers [[((0:ℚ), 0, 0)]]).length = 1 ∧
    (publishHullsAsMarkers [[((0:ℚ), 0, 0)]]).length ≠ 0 := by
  constructor <;> decide

/-- C1 (amended): for every hull with n >= 2 boundary points the marker output
contains exactly n segments (the n-1 consecutive edges plus one closing
segment), but a hull with exactly 1 boundary point produces 1 degenerate
closing segment joining its point to itself, not 0; hence for a result whose
hulls are all nonempty the segment count of every hull equals its point
count, and the total is the sum of the hull sizes. -/
theorem C1_segment_counts :
    (∀ (c : Color) (ps : List Pt), 1 ≤ ps.length →
        (hullMarker c ps).length = ps.length) ∧
    (∀ (c : Color) (p : Pt), hullMarker c [p] = [((p, p), c)]) ∧
    (∀ hulls : List (List Pt), (∀ ps ∈ hulls, 1 ≤ ps.length) →
        (publishHullsAsMarkers hulls).length = (hulls.map List.length).sum) := by
  refine ⟨hullMarker_length, ?_, ?_⟩
  · intro c p
    rfl
  · intro hulls h
    exact publishHullsAsMarkersGo_length 0 hulls h

/-- C1 witness: the amended statement evaluated on a two-point hull followed
by a one-point hull. -/
theorem C1_witness :
    (hullMarker (colorOf 0) [((0:ℚ), 0, 0), ((1:ℚ), 0, 0)]).length =
      ([((0:ℚ), 0, 0), ((1:ℚ), 0, 0)] : List Pt).length ∧
    (publishHullsAsMarkers [[((0:ℚ), 0, 0), ((1:ℚ), 0, 0)], [((2:ℚ), 2, 2)]]).length =
      ([[((0:ℚ), 0, 0), ((1:ℚ), 0, 0)], [((2:ℚ), 2, 2)]].map List.length).sum :=
  ⟨C1_segment_counts.1 (colorOf 0) _ (by decide),
   C1_segment_counts.2.2 _ (by decide)⟩

/-- C9: every point-index access of `publishHullsAsMarkers` is in bounds
provided every hull has at least one point: the bounds-checked variant
succeeds and agrees with the unchecked one.  The closing segment, accessing
indices 0 and size-1, is emitted for every hull regardless of its size (first
conjunct), which is why the at-least-one-point precondition is needed. -/
theorem C9_marker_access_safety :
    (∀ (c : Color) (ps : List Pt), ∃ edges,
        hullMarker c ps = edges ++
          [((ps.getD 0 (0, 0, 0), ps.getD (ps.length - 1) (0, 0, 0)), c)]) ∧
    (∀ (c : Color) (ps : List Pt), 1 ≤ ps.length →
        hullMarkerChecked c ps = some (hullMarker c ps)) := by
  constructor
  · intro c ps
    exact ⟨_, rfl⟩
  · intro c ps h
    have h0 : ps.get? 0 = some (ps.getD 0 (0, 0, 0)) :=
      get?_eq_some_getD ps (0, 0, 0) 0 (by omega)
    have hn : ps.get? (ps.length - 1) =
        some (ps.getD (ps.length - 1) (0, 0, 0)) :=
      get?_eq_some_getD ps (0, 0, 0) (ps.length - 1) (by omega)
    have hseq : seqOpt ((List.range' 1 (ps.length - 1)).map
        (fun j => (ps.get? (j - 1)).bind
          (fun a => (ps.get? j).map (fun b => ((a, b), c))))) =
        some ((List.range' 1 (ps.length - 1)).map
          (fun j => ((ps.getD (j - 1) (0, 0, 0), ps.getD j (0, 0, 0)), c))) := by
      apply seqOpt_map_eq_some
      intro j hj
      have hj2 := List.mem_range'_1.mp hj
      rw [get?_eq_some_getD ps (0, 0, 0) (j - 1) (by omega),
        get?_eq_some_getD ps (0, 0, 0) j (by omega)]
      rfl
    unfold hullMarkerChecked
    rw [hseq, h0, hn]
    rfl

/-- C9 witness: the bounds-checked marker succeeds on a concrete one-point
hull and agrees with the unchecked marker. -/
theorem C9_witness :
    hullMarkerChecked ((0:ℚ), 0, 0) [((5:ℚ), 0, 0)] =
      some (hullMarker ((0:ℚ), 0, 0) [((5:ℚ), 0, 0)]) :=
  C9_marker_access_safety.2 ((0:ℚ), 0, 0) [((5:ℚ), 0, 0)] (by decide)

/-- C3: for every hull index `i`, the combined colored cloud splits as the
output of the hulls before `i`, then exactly hull `i`'s points each tagged
with `colorOf i`, then the output of the hulls after `i`; the line marker
splits the same way around hull `i`'s segment block, every entry of which
carries `colorOf i` — so every point appended for hull `i` and every segment
vertex emitted for hull `i` carries exactly the color of hull `i`, which is
entry `i mod 28` of the fixed 28-entry palette (in the 8-bit scale in which
both publishers emit it); in particular hulls 0 and 28 receive identical
colors. -/
theorem C3_cyclic_hull_colors :
    (∀ (hulls : List (List Pt)) (i : ℕ) (ps : List Pt),
        hulls.get? i = some ps →
        publishHullsAsCloud hulls =
          publishHullsAsCloudGo 0 (hulls.take i)
          ++ ps.map (fun p => (p, colorOf i))
          ++ publishHullsAsCloudGo (i + 1) (hulls.drop (i + 1))) ∧
    (∀ (hulls : List (List Pt)) (i : ℕ) (ps : List Pt),
        hulls.get? i = some ps →
        publishHullsAsMarkers hulls =
          publishHullsAsMarkersGo 0 (hulls.take i)
          ++ hullMarker (colorOf i) ps
          ++ publishHullsAsMarkersGo (i + 1) (hulls.drop (i + 1))) ∧
    (∀ (c : Color) (ps : List Pt) (e : (Pt × Pt) × Color),
        e ∈ hullMarker c ps → e.2 = c) ∧
    (∀ i, colorOf i = paletteSpec.getD (i % 28) (0, 0, 0)) ∧
    paletteSpec.length = 28 ∧
    colorOf 0 = colorOf 28 := by
  refine ⟨?_, ?_, mem_hullMarker_color, colorOf_eq_paletteSpec, rfl, rfl⟩
  · intro hulls i ps h
    have hd := publishHullsAsCloudGo_decomp hulls 0 i ps h
    rw [Nat.zero_add] at hd
    exact hd
  · intro hulls i ps h
    have hd := publishHullsAsMarkersGo_decomp hulls 0 i ps h
    rw [Nat.zero_add] at hd
    exact hd

/-- C3 witness: the cloud decomposition of C3 evaluated at hull index 1 of a
concrete two-hull result. -/
theorem C3_witness :
    ([[((1:ℚ), 0, 0)], [((2:ℚ), 0, 0)]] : List (List Pt)).get? 1 =
      some [((2:ℚ), 0, 0)] ∧
    publishHullsAsCloud [[((1:ℚ), 0, 0)], [((2:ℚ), 0, 0)]] =
      publishHullsAsCloudGo 0 ([[((1:ℚ), 0, 0)], [((2:ℚ), 0, 0)]].take 1)
      ++ [((2:ℚ), 0, 0)].map (fun p => (p, colorOf 1))
      ++ publishHullsAsCloudGo 2 ([[((1:ℚ), 0, 0)], [((2:ℚ), 0, 0)]].drop 2) := by
  have h : ([[((1:ℚ), 0, 0)], [((2:ℚ), 0, 0)]] : List (List Pt)).get? 1 =
      some [((2:ℚ), 0, 0)] := rfl
  exact ⟨h, C3_cyclic_hull_colors.1 [[((1:ℚ), 0, 0)], [((2:ℚ), 0, 0)]] 1
    [((2:ℚ), 0, 0)] h⟩

/-- C6: for every `lookDirection` not parallel to the world up axis (its
cross product with `(0,0,1)` is nonzero), the three columns of the rotation
built in `processCloud` are pairwise orthogonal unit vectors forming a
right-handed basis (first column cross second column equals the third), and
the third column is the normalized `lookDirection`.  In exact arithmetic the
dot products are exactly 0 and the norms exactly 1, hence within the claimed
1e-6 tolerance. -/
theorem C6_frame_orthonormal (lookDir : Vec3)
    (h : Vec3.cross lookDir Vec3.unitZ ≠ Vec3.zero) :
    Vec3.dot (processCloudRotation lookDir).1 (processCloudRotation lookDir).2.1 = 0 ∧
    Vec3.dot (processCloudRotation lookDir).2.1 (processCloudRotation lookDir).2.2 = 0 ∧
    Vec3.dot (processCloudRotation lookDir).1 (processCloudRotation lookDir).2.2 = 0 ∧
    Vec3.norm (processCloudRotation lookDir).1 = 1 ∧
    Vec3.norm (processCloudRotation lookDir).2.1 = 1 ∧
    Vec3.norm (processCloudRotation lookDir).2.2 = 1 ∧
    Vec3.cross (processCloudRotation lookDir).1 (processCloudRotation lookDir).2.1 =
      (processCloudRotation lookDir).2.2 ∧
    (processCloudRotation lookDir).2.2 = Vec3.normalized lookDir := by
  have hrx : (processCloudRotation lookDir).1 =
      (Vec3.cross lookDir Vec3.unitZ).normalized := rfl
  have hry : (processCloudRotation lookDir).2.1 =
      (Vec3.cross lookDir (Vec3.cross lookDir Vec3.unitZ)).normalized := rfl
  have hrz : (processCloudRotation lookDir).2.2 = lookDir.normalized := rfl
  rw [hrx, hry, hrz]
  set rz := lookDir with hdefz
  set rx := Vec3.cross rz Vec3.unitZ with hdefx
  set ry := Vec3.cross rz rx with hdefy
  have hzzero : rz ≠ Vec3.zero := by
    intro hz
    apply h
    rw [hdefx, hz]
    exact Vec3.cross_zero_left Vec3.unitZ
  have hdzx : Vec3.dot rz rx = 0 := by
    rw [hdefx]; exact Vec3.dot_self_cross rz Vec3.unitZ
  have hdzy : Vec3.dot rz ry = 0 := by
    rw [hdefy]; exact Vec3.dot_self_cross rz rx
  have hdxy : Vec3.dot rx ry = 0 := by
    rw [hdefy]; exact Vec3.dot_cross_right rz rx
  have hn2y : Vec3.norm2 ry = Vec3.norm2 rz * Vec3.norm2 rx := by
    rw [hdefy, Vec3.norm2_cross, hdzx]; ring
  have hyzero : ry ≠ Vec3.zero := by
    intro hy
    have h0 : Vec3.norm2 ry = 0 := (Vec3.norm2_eq_zero_iff ry).mpr hy
    rw [hn2y] at h0
    rcases mul_eq_zero.mp h0 with h1 | h2
    · exact hzzero ((Vec3.norm2_eq_zero_iff rz).mp h1)
    · exact h ((Vec3.norm2_eq_zero_iff rx).mp h2)
  refine ⟨?_, ?_, ?_, Vec3.norm_normalized h, Vec3.norm_normalized hyzero,
    Vec3.norm_normalized hzzero, ?_, rfl⟩
  · rw [Vec3.dot_normalized, hdxy, zero_div]
  · have hdyz : Vec3.dot ry rz = 0 := by rw [Vec3.dot_comm]; exact hdzy
    rw [Vec3.dot_normalized, hdyz, zero_div]
  · have hdxz : Vec3.dot rx rz = 0 := by rw [Vec3.dot_comm]; exact hdzx
    rw [Vec3.dot_normalized, hdxz, zero_div]
  · rw [Vec3.normalized_eq_smul rx, Vec3.normalized_eq_smul ry,
      Vec3.cross_smul_smul]
    have hcc : Vec3.cross rx ry = Vec3.smul (Vec3.dot rx rx) rz := by
      rw [hdefy]
      exact Vec3.cross_cross_of_dot_eq_zero rx rz
        (by rw [Vec3.dot_comm]; exact hdzx)
    rw [hcc, Vec3.smul_smul, Vec3.normalized_eq_smul rz]
    congr 1
    have hnx : Vec3.norm rx ≠ 0 := ne_of_gt (Vec3.norm_pos_of_ne_zero h)
    have hnz : Vec3.norm rz ≠ 0 := ne_of_gt (Vec3.norm_pos_of_ne_zero hzzero)
    have hnyval : Vec3.norm ry = Vec3.norm rz * Vec3.norm rx := by
      unfold Vec3.norm
      rw [hn2y, Real.sqrt_mul (Vec3.norm2_nonneg rz)]
    rw [hnyval, show Vec3.dot rx rx = Vec3.norm2 rx from rfl,
      ← Vec3.norm_mul_self rx]
    field_simp
    ring

/-- C6 witness: the frame orthonormality evaluated at the non-degenerate look
direction `(1, 0, 0)`. -/
theorem C6_witness :
    Vec3.cross ⟨1, 0, 0⟩ Vec3.unitZ ≠ Vec3.zero ∧
    (Vec3.dot (processCloudRotation ⟨1, 0, 0⟩).1 (processCloudRotation ⟨1, 0, 0⟩).2.1 = 0 ∧
     Vec3.dot (processCloudRotation ⟨1, 0, 0⟩).2.1 (processCloudRotation ⟨1, 0, 0⟩).2.2 = 0 ∧
     Vec3.dot (processCloudRotation ⟨1, 0, 0⟩).1 (processCloudRotation ⟨1, 0, 0⟩).2.2 = 0 ∧
     Vec3.norm (processCloudRotation ⟨1, 0, 0⟩).1 = 1 ∧
     Vec3.norm (processCloudRotation ⟨1, 0, 0⟩).2.1 = 1 ∧
     Vec3.norm (processCloudRotation ⟨1, 0, 0⟩).2.2 = 1 ∧
     Vec3.cross (processCloudRotation ⟨1, 0, 0⟩).1 (processCloudRotation ⟨1, 0, 0⟩).2.1 =
       (processCloudRotation ⟨1, 0, 0⟩).2.2 ∧
     (processCloudRotation ⟨1, 0, 0⟩).2.2 = Vec3.normalized ⟨1, 0, 0⟩) := by
  have hne : Vec3.cross ⟨1, 0, 0⟩ Vec3.unitZ ≠ Vec3.zero := by
    intro he
    have h2 := congrArg Vec3.y he
    unfold Vec3.cross Vec3.unitZ Vec3.zero at h2
    norm_num at h2
  exact ⟨hne, C6_frame_orthonormal ⟨1, 0, 0⟩ hne⟩

/-- C7: for the identity quaternion `(w=1, x=0, y=0, z=0)`, `quat_to_euler`
returns roll = pitch = yaw = 0, and `convertRobotPoseToSensorLookDir` on the
corresponding zero rotation (the identity pose) returns the look direction
`(1, 0, 0)`. -/
theorem C7_identity_rotation :
    quat_to_euler ⟨1, 0, 0, 0⟩ = (0, 0, 0) ∧
    convertRobotPoseToSensorLookDir idPose = Vec3.mk 1 0 0 :=
  ⟨quat_to_euler_id, convert_id_lookDir⟩

/-- C10: the cached robot pose is initialized to the identity transform by the
constructor, so a cloud arriving before any pose update is processed with
sensor origin `(0, 0, 0)` and look direction `(1, 0, 0)`. -/
theorem C10_initial_pose_identity :
    initialState.lastRobotPose = idPose ∧
    callbackArgs initialState = (Vec3.mk 0 0 0, Vec3.mk 1 0 0) ∧
    ∀ (engine : List Pt → List Block) (msg : List Pt),
      pointCloudCallback engine initialState msg =
        processCloud engine initialState msg (Vec3.mk 0 0 0) (Vec3.mk 1 0 0) := by
  have hargs : callbackArgs initialState = (Vec3.mk 0 0 0, Vec3.mk 1 0 0) := by
    unfold callbackArgs initialState
    rw [convert_id_lookDir]
    rfl
  refine ⟨rfl, hargs, ?_⟩
  intro engine msg
  unfold pointCloudCallback
  rw [hargs]

/-- C2 counterexample: `processCloud` does not leave the stored result
untouched on an empty input cloud — with a prior empty result and an engine
returning one block, processing the empty cloud overwrites `result_`, so no
`InvalidInput` abort happens before the engine is invoked. -/
theorem C2_counterexample :
    (processCloud (fun _ => [⟨[((0:ℚ), 0, 0)]⟩]) initialState []
        Vec3.zero Vec3.zero).1.result ≠ initialState.result := by
  unfold processCloud initialState
  simp

/-- C2 (amended): `processCloud` performs no empty-cloud validation and has no
error path: for every prior state it invokes the segmentation engine
unconditionally — also on the empty cloud — and overwrites the stored result
with the engine's return value, leaving only the cached pose unchanged. -/
theorem C2_no_empty_cloud_validation (engine : List Pt → List Block)
    (s : RIState) (origin lookDir : Vec3) :
    (processCloud engine s [] origin lookDir).1.result = engine [] ∧
    (processCloud engine s [] origin lookDir).1.lastRobotPose =
      s.lastRobotPose :=
  ⟨rfl, rfl⟩

/-- C2 witness: the amended statement evaluated at a concrete engine and
state. -/
theorem C2_witness :
    (processCloud (fun _ => []) initialState [] Vec3.zero Vec3.zero).1.result
        = (fun (_ : List Pt) => ([] : List Block)) [] ∧
    (processCloud (fun _ => []) initialState [] Vec3.zero
        Vec3.zero).1.lastRobotPose = initialState.lastRobotPose :=
  C2_no_empty_cloud_validation (fun _ => []) initialState Vec3.zero Vec3.zero

/-- C8 counterexample: the diagnostic dump's identifier for block 0 is the
constant `"0_1"`; at any cycle whose index is 1 the claimed form
`"<cycleIndex>_<blockIndexPlusOne>"` would be `"1_1"`, which differs. -/
theorem C8_counterexample :
    printResultAsJsonUuids [⟨[]⟩] = [uuid 0] ∧ uuid 0 ≠ uuidSpec 1 0 := by
  exact ⟨rfl, by decide⟩

/-- C8 (amended): the dump assigns block `i` the identifier
`"0_" ++ toString (i+1)`; this matches the claimed per-cycle form only with
the cycle-index component pinned to the constant 0 (the source maintains no
cycle counter). -/
theorem C8_uuid_cycle_component_constant (result : List Block) :
    printResultAsJsonUuids result =
      (List.range result.length).map (uuidSpec 0) := by
  have h : uuid = uuidSpec 0 := funext fun i => rfl
  unfold printResultAsJsonUuids
  rw [h]

/-- C4 counterexample: for `lookDirection = (0, 0, 1)` (parallel to the world
up axis) the frame-building step of `processCloud` neither signals an error
nor substitutes a fallback axis: it returns normally and its first column is
the normalization of the zero cross product — zero entries in this exact
model, NaN entries in the floating-point original — not a unit vector. -/
theorem C4_counterexample :
    (processCloudRotation ⟨0, 0, 1⟩).1 = Vec3.zero ∧
    Vec3.norm2 (processCloudRotation ⟨0, 0, 1⟩).1 ≠ 1 := by
  have h : (processCloudRotation ⟨0, 0, 1⟩).1 = Vec3.zero := by
    show Vec3.normalized (Vec3.cross ⟨0, 0, 1⟩ Vec3.unitZ) = Vec3.zero
    have hc : Vec3.cross ⟨0, 0, 1⟩ Vec3.unitZ = Vec3.zero := by
      unfold Vec3.cross Vec3.unitZ Vec3.zero
      ext <;> norm_num
    rw [hc, Vec3.normalized_zero]
  refine ⟨h, ?_⟩
  rw [h]
  unfold Vec3.norm2 Vec3.dot Vec3.zero
  norm_num

/-- C4 (amended): the frame-building step performs no degenerate-direction
check: whenever `lookDirection` is parallel to the world up axis (its cross
product with `(0,0,1)` is the zero vector), the first basis column is the
"normalization" of the zero vector — produced silently, with no error signal
and no fallback axis. -/
theorem C4_no_degenerate_frame_detection (lookDir : Vec3)
    (h : Vec3.cross lookDir Vec3.unitZ = Vec3.zero) :
    (processCloudRotation lookDir).1 = Vec3.zero := by
  show Vec3.normalized (Vec3.cross lookDir Vec3.unitZ) = Vec3.zero
  rw [h, Vec3.normalized_zero]

/-- C4 witness: the amended statement evaluated at `lookDirection = (0,0,1)`. -/
theorem C4_witness :
    Vec3.cross ⟨0, 0, 1⟩ Vec3.unitZ = Vec3.zero ∧
    (processCloudRotation ⟨0, 0, 1⟩).1 = Vec3.zero := by
  have hc : Vec3.cross ⟨0, 0, 1⟩ Vec3.unitZ = Vec3.zero := by
    unfold Vec3.cross Vec3.unitZ Vec3.zero
    ext <;> norm_num
  exact ⟨hc, C4_no_degenerate_frame_detection _ hc⟩

/-- C5 counterexample: the pitch path of `quat_to_euler` feeds `asin` the raw
expression `2(wy - zx)` — at the input quaternion `(1, 0, 1, 0)` that argument
is 2, which differs from its clamp to `[-1, 1]`, so no clamping is performed
(in IEEE arithmetic `asin(2)` is NaN). -/
theorem C5_counterexample :
    (quat_to_euler ⟨1, 0, 1, 0⟩).2.1 = Real.arcsin (pitchArg ⟨1, 0, 1, 0⟩) ∧
    pitchArg ⟨1, 0, 1, 0⟩ = 2 ∧
    pitchArg ⟨1, 0, 1, 0⟩ ≠ max (-1) (min 1 (pitchArg ⟨1, 0, 1, 0⟩)) := by
  refine ⟨rfl, ?_, ?_⟩
  · unfold pitchArg; norm_num
  · unfold pitchArg; norm_num

/-- C5 (amended): `quat_to_euler` passes `2(wy - zx)` to `asin` with no
clamping; for exactly unit quaternions the argument already lies in `[-1, 1]`
(so over the reals no out-of-range application occurs for unit inputs), but
nothing protects inputs whose norm exceeds 1, e.g. through numerical
overflow. -/
theorem C5_pitch_arg_unclamped_unit_range (q : Quat)
    (h : q.w * q.w + q.x * q.x + q.y * q.y + q.z * q.z = 1) :
    (quat_to_euler q).2.1 = Real.arcsin (pitchArg q) ∧
    -1 ≤ pitchArg q ∧ pitchArg q ≤ 1 := by
  refine ⟨rfl, ?_, ?_⟩
  · unfold pitchArg
    nlinarith [sq_nonneg (q.w + q.y), sq_nonneg (q.x - q.z)]
  · unfold pitchArg
    nlinarith [sq_nonneg (q.w - q.y), sq_nonneg (q.x + q.z)]

/-- C5 witness: the amended statement evaluated at the identity quaternion. -/
theorem C5_witness :
    (Quat.mk 1 0 0 0).w * (Quat.mk 1 0 0 0).w +
      (Quat.mk 1 0 0 0).x * (Quat.mk 1 0 0 0).x +
      (Quat.mk 1 0 0 0).y * (Quat.mk 1 0 0 0).y +
      (Quat.mk 1 0 0 0).z * (Quat.mk 1 0 0 0).z = 1 ∧
    ((quat_to_euler ⟨1, 0, 0, 0⟩).2.1 = Real.arcsin (pitchArg ⟨1, 0, 0, 0⟩) ∧
     -1 ≤ pitchArg ⟨1, 0, 0, 0⟩ ∧ pitchArg ⟨1, 0, 0, 0⟩ ≤ 1) := by
  have h : (Quat.mk 1 0 0 0).w * (Quat.mk 1 0 0 0).w +
      (Quat.mk 1 0 0 0).x * (Quat.mk 1 0 0 0).x +
      (Quat.mk 1 0 0 0).y * (Quat.mk 1 0 0 0).y +
      (Quat.mk 1 0 0 0).z * (Quat.mk 1 0 0 0).z = 1 := by norm_num
  exact ⟨h, C5_pitch_arg_unclamped_unit_range _ h⟩

end PlaneSeg
